import Mathlib

/-!
Shallow embedding of the `Time` / `Duration` value types of `src/time.h`.

The C++ code stores a `struct timeval { time_t tv_sec; suseconds_t tv_usec; }`
where, on the Linux/LP64 platform the header documents in its own comment,
`time_t` and `suseconds_t` are both signed 64-bit `long` and `unsigned long`
is 64-bit.  Signed machine values are embedded as unbounded `Int` (signed
overflow is undefined behaviour in C++ and never exercised by the claims);
every computation the source performs in `unsigned long` is embedded
explicitly modulo 2^64, and every conversion of an unsigned value back to a
signed 64-bit (or 32-bit `int`) field uses the wrap-around reinterpretation
that the gcc/Linux target performs.
-/

/-- The value of an expression converted to `unsigned long` (64-bit):
reduction modulo 2^64, represented as the mathematical value in
[0, 2^64) (an `Int` for ease of mixing with signed operands). -/
def u64 (x : Int) : Int := x % 18446744073709551616

/-- Reinterpretation of a 64-bit unsigned value as the signed 64-bit
`long` with the same bit pattern (two's complement), as gcc performs for
an out-of-range unsigned-to-signed conversion. -/
def i64 (x : Int) : Int :=
  if x % 18446744073709551616 < 9223372036854775808
  then x % 18446744073709551616
  else x % 18446744073709551616 - 18446744073709551616

/-- Reinterpretation of an unsigned value as a signed 32-bit `int`
(two's complement wrap), as gcc performs when `unsigned long` is
converted to `int`. -/
def i32 (x : Int) : Int :=
  if x % 4294967296 < 2147483648
  then x % 4294967296
  else x % 4294967296 - 4294967296

/-- `const unsigned long MAX_USECS = 1000000L;` (src/time.h line 8). -/
def MAX_USECS : Int := 1000000

/-- The `struct timeval` payload of `Time` (and of `Duration::_t`):
seconds since the epoch and the sub-second microsecond field. -/
structure Timeval where
  tv_sec : Int
  tv_usec : Int
deriving DecidableEq, Repr

/-- `Time::Time()`: zero value. -/
def timeZero : Timeval := ⟨0, 0⟩

/-- `explicit Time(unsigned long micros)`: `tv_sec = micros / MAX_USECS;
tv_usec = micros % MAX_USECS;` — unsigned division and remainder, each
result then stored into a signed field. -/
def timeOfMicros (micros : Int) : Timeval :=
  ⟨i64 (u64 micros / MAX_USECS), i64 (u64 micros % MAX_USECS)⟩

/-- `explicit Time(time_t secondsSinceEpoch, suseconds_t micros = 0)`:
direct field copy, no validation. -/
def timeOfSecMicros (secondsSinceEpoch : Int) (micros : Int := 0) : Timeval :=
  ⟨secondsSinceEpoch, micros⟩

/-- `Time::in_micros()`: `(_t.tv_sec * MAX_USECS) + _t.tv_usec`.
`MAX_USECS` is `unsigned long`, so `tv_sec` is converted to unsigned,
the product and sum are taken modulo 2^64, and the result is converted
back to the signed return type `suseconds_t`. -/
def in_micros (t : Timeval) : Int :=
  i64 (u64 (u64 (u64 t.tv_sec * MAX_USECS) + u64 t.tv_usec))

/-- `Time::operator==`: `in_micros() == rhs.in_micros()`. -/
def timeEqB (a b : Timeval) : Bool := decide (in_micros a = in_micros b)

/-- `Time::operator!=`: `!(*this == rhs)`. -/
def timeNeB (a b : Timeval) : Bool := !(timeEqB a b)

/-- `Time::operator>=`: `in_micros() >= rhs.in_micros()`. -/
def timeGeB (a b : Timeval) : Bool := decide (in_micros b ≤ in_micros a)

/-- `Time::operator<=`: `in_micros() <= rhs.in_micros()`. -/
def timeLeB (a b : Timeval) : Bool := decide (in_micros a ≤ in_micros b)

/-- `Time::operator>`: `in_micros() > rhs.in_micros()`. -/
def timeGtB (a b : Timeval) : Bool := decide (in_micros b < in_micros a)

/-- `Time::operator<`: `in_micros() < rhs.in_micros()`. -/
def timeLtB (a b : Timeval) : Bool := decide (in_micros a < in_micros b)

/-- glibc's `timeradd` macro from `<sys/time.h>` (the host primitive the
header's `operator+=` delegates to): add fields, then if the microsecond
sum reached 1,000,000 carry one second. -/
def timeradd (a b : Timeval) : Timeval :=
  let sec := a.tv_sec + b.tv_sec
  let usec := a.tv_usec + b.tv_usec
  if 1000000 ≤ usec then ⟨sec + 1, usec - 1000000⟩ else ⟨sec, usec⟩

/-- glibc's `timersub` macro from `<sys/time.h>` (the host primitive the
header's `operator-=` delegates to): subtract fields, then if the
microsecond difference is negative borrow one second. -/
def timersub (a b : Timeval) : Timeval :=
  let sec := a.tv_sec - b.tv_sec
  let usec := a.tv_usec - b.tv_usec
  if usec < 0 then ⟨sec - 1, usec + 1000000⟩ else ⟨sec, usec⟩

/-- `Time::operator+=`: `timeradd(&_t, &rhs._t, &result)` then copy the
result back into `_t`. -/
def timeAddAssign (t rhs : Timeval) : Timeval := timeradd t rhs

/-- `Time::operator-=`: `timersub(&_t, &rhs._t, &result)` then copy the
result back into `_t`. -/
def timeSubAssign (t rhs : Timeval) : Timeval := timersub t rhs

/-- `operator+(const Time&, const Time&)`: copy the left operand and
apply `+=`. -/
def timeAdd (t1 t2 : Timeval) : Timeval := timeAddAssign t1 t2

/-- `operator-(const Time&, const Time&)`: copy the left operand and
apply `-=`. -/
def timeSub (t1 t2 : Timeval) : Timeval := timeSubAssign t1 t2

/-- `operator+(const Time&, unsigned long offset)`: build `Time r(offset)`
with the raw-microsecond constructor, then `t1 + r`. -/
def timeAddOffset (t1 : Timeval) (offset : Int) : Timeval :=
  timeAdd t1 (timeOfMicros offset)

/-- `operator-(const Time&, unsigned long offset)`: build `Time r(offset)`
with the raw-microsecond constructor, then `t1 - r`. -/
def timeSubOffset (t1 : Timeval) (offset : Int) : Timeval :=
  timeSub t1 (timeOfMicros offset)

/-- `Time::operator/=(int denominator)` (src/time.h lines 130-146).
The `unsigned long` locals `remainder` and `micros` are embedded with
`u64`; `tv_sec / denominator` and `tv_sec % denominator` are signed
(truncating) division/remainder; `micros / denominator` is unsigned
division (the `int` denominator is converted to `unsigned long`); the
quotient is then stored into the signed `tv_usec` field. -/
def timeDivAssign (t : Timeval) (denominator : Int) : Timeval :=
  if denominator ≤ t.tv_sec then
    let rSec := t.tv_sec.tdiv denominator
    let remainder : Int := u64 (t.tv_sec.tmod denominator)
    let micros : Int := u64 (u64 (remainder * MAX_USECS) + u64 t.tv_usec)
    ⟨rSec, i64 (micros / u64 denominator)⟩
  else
    let micros : Int := u64 (u64 (u64 t.tv_sec * MAX_USECS) + u64 t.tv_usec)
    ⟨0, i64 (micros / u64 denominator)⟩

/-- `operator/(const Time&, unsigned int denominator)`: copy and apply
`/=` (the denominator is converted to `int`; identity for the positive
in-range denominators the claims quantify over). -/
def timeDiv (t : Timeval) (denominator : Int) : Timeval :=
  timeDivAssign t denominator

/-- `Time::operator*=(int multiplier)` (src/time.h lines 148-163).
`Time r;` zero-initialises `r`, so the final
`r._t.tv_sec *= multiplier; r._t.tv_sec += secsToAdd;` multiplies `r`'s
zero seconds — the receiver's original `tv_sec` is never read.  The
`unsigned long` local `micros` is embedded with `u64`; `secsToAdd` is an
`int`, so the unsigned quotient is truncated through `i32`. -/
def timeMulAssign (t : Timeval) (multiplier : Int) : Timeval :=
  let r := timeZero
  let micros : Int := u64 (t.tv_usec * multiplier)
  let secsToAdd : Int := if MAX_USECS < micros then i32 (micros / MAX_USECS) else 0
  let rUsec : Int := if MAX_USECS < micros then i64 (micros % MAX_USECS) else i64 micros
  ⟨r.tv_sec * multiplier + secsToAdd, rUsec⟩

/-- `operator*(const Time&, unsigned int multiplier)`: copy and apply
`*=` (the multiplier is converted to `int`; identity for the positive
in-range multipliers the claims quantify over). -/
def timeMul (t : Timeval) (multiplier : Int) : Timeval :=
  timeMulAssign t multiplier

/-! ### String rendering of `Duration`

`operator<<(std::ostream&, const Duration&)` is embedded as a pure
function producing the characters appended to a stream that is in the
default formatting state (width 0) when the insertion starts, which is
the state the spec's examples assume. -/

/-- Decimal digit character. -/
def digitChar (n : Nat) : Char := Char.ofNat (48 + n)

/-- Decimal digits of a natural number, with explicit structural fuel so
the definition reduces inside `decide`. -/
def natDigitsAux : Nat → Nat → List Char
  | 0, _ => []
  | fuel + 1, n =>
    if n < 10 then [digitChar n]
    else natDigitsAux fuel (n / 10) ++ [digitChar (n % 10)]

/-- Decimal rendering of a natural number, as `operator<<` prints an
unsigned integral value. -/
def natStr (n : Nat) : String := String.mk (natDigitsAux (n + 1) n)

/-- Decimal rendering of a signed integral value, as `operator<<`
prints it: a leading minus sign for negatives. -/
def intStr (x : Int) : String :=
  if x < 0 then "-" ++ natStr (-x).toNat else natStr x.toNat

/-- `std::setw(w)` with `std::right` and fill character `c`: pad the
rendered text on the left up to width `w`. -/
def padTo (w : Nat) (c : Char) (s : String) : String :=
  if w ≤ s.length then s else String.mk (List.replicate (w - s.length) c) ++ s

/-- `'0'`, the fill character installed by `std::setfill('0')`. -/
def zeroFill : Char := digitChar 0

/-- The state `Duration` captures: a copy of the source `Time`'s
`struct timeval` (`_t(t._t)`) and the `showMicros` flag (`_su`). -/
structure Duration where
  dsec : Int
  dusec : Int
  su : Bool
deriving DecidableEq, Repr

/-- `explicit Duration(const Time& t, bool showMicros = false)`:
copies the `timeval` by value and stores the flag. -/
def durationOfTime (t : Timeval) (showMicros : Bool := false) : Duration :=
  ⟨t.tv_sec, t.tv_usec, showMicros⟩

/-- `operator<<(std::ostream&, const Duration&)` (src/time.h lines
220-241).  `MINUTE`, `HOUR` and `DAY` are `unsigned long`, so every
`s / ...` and `s % ...` is computed in unsigned arithmetic (`u64`) and
each remainder is stored back into the signed `time_t` local `s`
(`i64`).  The day count and the hour, minute quotients are printed as
unsigned; the final seconds remainder and the microsecond field are
printed as signed.  Only the minute, second (and microsecond) fields
get a `std::setw`; the day and hour fields print at natural width. -/
def durRender (d : Duration) : String :=
  let s0 : Int := d.dsec
  let dayQ : Int := u64 s0 / 86400
  let pDay : String := if dayQ ≠ 0 then natStr dayQ.toNat ++ "d " else ""
  let s1 : Int := if dayQ ≠ 0 then i64 (u64 s0 % 86400) else s0
  let pHour : String := natStr (u64 s1 / 3600).toNat ++ ":"
  let s2 : Int := i64 (u64 s1 % 3600)
  let pMin : String := padTo 2 zeroFill (natStr (u64 s2 / 60).toNat) ++ ":"
  let s3 : Int := i64 (u64 s2 % 60)
  let pSec : String := padTo 2 zeroFill (intStr s3)
  let pMicros : String :=
    if d.su then "." ++ padTo 6 zeroFill (intStr d.dusec) else ""
  pDay ++ pHour ++ pMin ++ pSec ++ pMicros

/-! ### Mutation steps on a program state holding a `Time` and a
`Duration` constructed from it

Every mutating member of `Time` updates the receiver's `_t`; a
`Duration` constructed earlier holds its own copy `_t` (src/time.h line
218 and 244), so the program state carries the two side by side.  The
three clock-reading mutators (`now`, `future`, `past`) take the host
clock reading as an explicit parameter, the injectable capability the
spec describes. -/

/-- One mutating operation on a `Time` object: the compound-assignment
operators, plain assignment, and the three clock-setting mutators with
the clock reading passed in. -/
inductive TimeOp where
  | addT : Timeval → TimeOp
  | subT : Timeval → TimeOp
  | mulT : Int → TimeOp
  | divT : Int → TimeOp
  | assignT : Timeval → TimeOp
  | nowT : Timeval → TimeOp
  | futureT : Timeval → Int → TimeOp
  | pastT : Timeval → Int → TimeOp

/-- Effect of one mutating operation on the `Time`'s `timeval`: `+=`,
`-=`, `*=`, `/=`, `operator=`, `now()` (overwrite with the clock
reading), `future(d)` (clock reading with `tv_sec += d`), `past(d)`
(clock reading with `tv_sec -= d`). -/
def applyOp : TimeOp → Timeval → Timeval
  | .addT rhs, t => timeAddAssign t rhs
  | .subT rhs, t => timeSubAssign t rhs
  | .mulT m, t => timeMulAssign t m
  | .divT d, t => timeDivAssign t d
  | .assignT rhs, _ => rhs
  | .nowT clk, _ => clk
  | .futureT clk delta, _ => ⟨clk.tv_sec + delta, clk.tv_usec⟩
  | .pastT clk delta, _ => ⟨clk.tv_sec - delta, clk.tv_usec⟩

/-- A program state holding a `Time` object and a `Duration` object. -/
structure ProgState where
  tp : Timeval
  dv : Duration

/-- Executing one mutating `Time` operation on the state: the `Time`'s
`timeval` is replaced, the `Duration`'s captured copy is untouched. -/
def stepTime (op : TimeOp) (s : ProgState) : ProgState :=
  ⟨applyOp op s.tp, s.dv⟩

/-! ### Arithmetic facts about the machine-integer helpers -/

lemma u64_eq_self {x : Int} (h0 : 0 ≤ x) (h1 : x < 18446744073709551616) :
    u64 x = x := by
  unfold u64; omega

lemma u64_nonneg (x : Int) : 0 ≤ u64 x := by
  unfold u64; omega

lemma u64_lt_size (x : Int) : u64 x < 18446744073709551616 := by
  unfold u64; omega

lemma i64_eq_self {x : Int} (h0 : 0 ≤ x) (h1 : x < 9223372036854775808) :
    i64 x = x := by
  unfold i64; split <;> omega

lemma i64_u64_roundtrip {x : Int} (h0 : -9223372036854775808 ≤ x)
    (h1 : x < 9223372036854775808) : i64 (u64 x) = x := by
  unfold i64 u64; split <;> omega

/-- The chain of unsigned conversions in `in_micros` (and in the else
branch of `operator/=`) computes `(s * 1000000 + u) mod 2^64`. -/
lemma u64_total_collapse (s u : Int) :
    u64 (u64 (u64 s * 1000000) + u64 u) = u64 (s * 1000000 + u) := by
  unfold u64; omega

/-- On inputs whose total-microsecond value fits the signed 64-bit
range, `in_micros` returns exactly `tv_sec * 1000000 + tv_usec`. -/
lemma in_micros_eq_total {t : Timeval}
    (h0 : -9223372036854775808 ≤ t.tv_sec * 1000000 + t.tv_usec)
    (h1 : t.tv_sec * 1000000 + t.tv_usec < 9223372036854775808) :
    in_micros t = t.tv_sec * 1000000 + t.tv_usec := by
  unfold in_micros MAX_USECS
  rw [u64_total_collapse]
  exact i64_u64_roundtrip h0 h1

/-- `timeradd` lands the microsecond field back in [0, 1000000) when
both inputs are normalized. -/
lemma timeradd_usec_bounds {a b : Timeval}
    (ha0 : 0 ≤ a.tv_usec) (ha1 : a.tv_usec < 1000000)
    (hb0 : 0 ≤ b.tv_usec) (hb1 : b.tv_usec < 1000000) :
    0 ≤ (timeradd a b).tv_usec ∧ (timeradd a b).tv_usec < 1000000 := by
  simp only [timeradd]
  split <;> dsimp only <;> omega

/-- `timersub` lands the microsecond field back in [0, 1000000) when
both inputs are normalized. -/
lemma timersub_usec_bounds {a b : Timeval}
    (ha0 : 0 ≤ a.tv_usec) (ha1 : a.tv_usec < 1000000)
    (hb0 : 0 ≤ b.tv_usec) (hb1 : b.tv_usec < 1000000) :
    0 ≤ (timersub a b).tv_usec ∧ (timersub a b).tv_usec < 1000000 := by
  simp only [timersub]
  split <;> dsimp only <;> omega

/-- Subtracting `b` right after adding `b` restores the exact fields,
for normalized microsecond fields. -/
lemma timersub_timeradd_cancel {a b : Timeval}
    (ha0 : 0 ≤ a.tv_usec) (ha1 : a.tv_usec < 1000000)
    (hb0 : 0 ≤ b.tv_usec) (hb1 : b.tv_usec < 1000000) :
    timersub (timeradd a b) b = a := by
  obtain ⟨as, au⟩ := a
  obtain ⟨bs, bu⟩ := b
  simp only [timeradd, timersub] at *
  split <;> split <;> dsimp only at * <;> simp only [Timeval.mk.injEq] <;>
    constructor <;> omega

/-! ### Claims -/

/-- C1: the claim says `t * m` has seconds equal to the ORIGINAL seconds
multiplied by `m` plus the microsecond carry.  The code violates this:
`operator*=` multiplies the zero-initialised local `Time r`'s seconds
instead of the receiver's, so the original seconds are discarded —
`Time(1, 0) * 2` yields `(0, 0)` where the claim requires seconds
`1 * 2 + 0 = 2`. -/
theorem C1_multiply_drops_original_seconds :
    timeMul ⟨1, 0⟩ 2 = ⟨0, 0⟩ ∧ (timeMul ⟨1, 0⟩ 2).tv_sec ≠ 1 * 2 + 0 := by
  constructor
  · decide
  · decide

/-- C2 counterexample: streaming `Duration(Time(3661, 0))` does not
render `"01:01:01"` — the hour field gets no `setw(2)`, so it prints at
natural width. -/
theorem C2_counterexample_hour_unpadded :
    durRender (durationOfTime ⟨3661, 0⟩) ≠ "01:01:01" := by
  decide

/-- C2 (amended): streaming a `Duration` renders the captured seconds as
days/hours/minutes/seconds with the hour at natural width (not
zero-padded): `Duration(Time(3661,0))` renders `"1:01:01"`,
`Duration(Time(90000,0))` renders `"1d 1:00:00"`, and
`Duration(Time(5,250000), true)` renders `"0:00:05.250000"`. -/
theorem C2_duration_render_examples :
    durRender (durationOfTime ⟨3661, 0⟩) = "1:01:01" ∧
    durRender (durationOfTime ⟨90000, 0⟩) = "1d 1:00:00" ∧
    durRender (durationOfTime ⟨5, 250000⟩ true) = "0:00:05.250000" := by
  refine ⟨by decide, by decide, by decide⟩

/-- C3: when the microsecond product equals exactly 1,000,000 the strict
`>` comparison keeps the carry branch untaken and the result's
microsecond field is exactly 1,000,000, violating the [0, 1000000)
normalization invariant. -/
theorem C3_exact_boundary_not_carried (t : Timeval) (m : Int)
    (hu : 0 ≤ t.tv_usec) (hm : 0 < m) (hprod : t.tv_usec * m = 1000000) :
    ¬ (MAX_USECS < u64 (t.tv_usec * m)) ∧
    (timeMul t m).tv_usec = 1000000 ∧ ¬ ((timeMul t m).tv_usec < 1000000) := by
  have hU : u64 (t.tv_usec * m) = 1000000 := by rw [hprod]; decide
  have hMul : (timeMul t m).tv_usec = 1000000 := by
    simp only [timeMul, timeMulAssign, timeZero, hU, MAX_USECS]
    norm_num [i64]
  refine ⟨by rw [hU]; decide, hMul, by omega⟩

/-- C3 witness: `Time(0, 500000) * 2` — the product is exactly
1,000,000, the carry branch is not taken, and the stored microsecond
field is 1,000,000 (the result is `(0, 1000000)`, not `(1, 0)`). -/
theorem C3_exact_boundary_witness :
    (0 : Int) ≤ 500000 ∧ (0 : Int) < 2 ∧ (500000 : Int) * 2 = 1000000 ∧
    (¬ (MAX_USECS < u64 ((500000 : Int) * 2)) ∧
     (timeMul ⟨0, 500000⟩ 2).tv_usec = 1000000 ∧
     ¬ ((timeMul ⟨0, 500000⟩ 2).tv_usec < 1000000)) :=
  ⟨by decide, by decide, by decide,
   C3_exact_boundary_not_carried ⟨0, 500000⟩ 2 (by decide) (by decide) (by decide)⟩

/-- C5: for operands whose microsecond fields are each in [0, 1000000),
the results of `a + b`, `a - b`, `a += b` and `a -= b` all have a
microsecond field in [0, 1000000). -/
theorem C5_addsub_preserve_usec_range (a b : Timeval)
    (ha0 : 0 ≤ a.tv_usec) (ha1 : a.tv_usec < 1000000)
    (hb0 : 0 ≤ b.tv_usec) (hb1 : b.tv_usec < 1000000) :
    (0 ≤ (timeAdd a b).tv_usec ∧ (timeAdd a b).tv_usec < 1000000) ∧
    (0 ≤ (timeSub a b).tv_usec ∧ (timeSub a b).tv_usec < 1000000) ∧
    (0 ≤ (timeAddAssign a b).tv_usec ∧ (timeAddAssign a b).tv_usec < 1000000) ∧
    (0 ≤ (timeSubAssign a b).tv_usec ∧ (timeSubAssign a b).tv_usec < 1000000) := by
  obtain ⟨h1, h2⟩ := timeradd_usec_bounds ha0 ha1 hb0 hb1
  obtain ⟨h3, h4⟩ := timersub_usec_bounds ha0 ha1 hb0 hb1
  exact ⟨⟨h1, h2⟩, ⟨h3, h4⟩, ⟨h1, h2⟩, ⟨h3, h4⟩⟩

/-- C5 witness: `(0, 999999) + (0, 999999)` carries into seconds and
`(0, 0) - (0, 1)` borrows from seconds; both land in range. -/
theorem C5_addsub_range_witness :
    (0 : Int) ≤ 999999 ∧ (999999 : Int) < 1000000 ∧
    (0 : Int) ≤ 1 ∧ (1 : Int) < 1000000 ∧
    ((0 ≤ (timeAdd ⟨0, 999999⟩ ⟨0, 1⟩).tv_usec ∧
      (timeAdd ⟨0, 999999⟩ ⟨0, 1⟩).tv_usec < 1000000) ∧
     (0 ≤ (timeSub ⟨0, 999999⟩ ⟨0, 1⟩).tv_usec ∧
      (timeSub ⟨0, 999999⟩ ⟨0, 1⟩).tv_usec < 1000000) ∧
     (0 ≤ (timeAddAssign ⟨0, 999999⟩ ⟨0, 1⟩).tv_usec ∧
      (timeAddAssign ⟨0, 999999⟩ ⟨0, 1⟩).tv_usec < 1000000) ∧
     (0 ≤ (timeSubAssign ⟨0, 999999⟩ ⟨0, 1⟩).tv_usec ∧
      (timeSubAssign ⟨0, 999999⟩ ⟨0, 1⟩).tv_usec < 1000000)) :=
  ⟨by decide, by decide, by decide, by decide,
   C5_addsub_preserve_usec_range ⟨0, 999999⟩ ⟨0, 1⟩
     (by decide) (by decide) (by decide) (by decide)⟩

/-- C6: for all normalized operands, `(a + b) - b == a` holds exactly
under the code's `operator==` — the subtraction restores the exact
fields. -/
theorem C6_add_sub_roundtrip (a b : Timeval)
    (ha0 : 0 ≤ a.tv_usec) (ha1 : a.tv_usec < 1000000)
    (hb0 : 0 ≤ b.tv_usec) (hb1 : b.tv_usec < 1000000) :
    timeEqB (timeSub (timeAdd a b) b) a = true := by
  have h : timeSub (timeAdd a b) b = a :=
    timersub_timeradd_cancel ha0 ha1 hb0 hb1
  rw [h]
  simp [timeEqB]

/-- C6 witness: `((1, 999999) + (2, 2)) - (2, 2) == (1, 999999)`. -/
theorem C6_add_sub_roundtrip_witness :
    (0 : Int) ≤ 999999 ∧ (999999 : Int) < 1000000 ∧
    (0 : Int) ≤ 2 ∧ (2 : Int) < 1000000 ∧
    timeEqB (timeSub (timeAdd ⟨1, 999999⟩ ⟨2, 2⟩) ⟨2, 2⟩) ⟨1, 999999⟩ = true :=
  ⟨by decide, by decide, by decide, by decide,
   C6_add_sub_roundtrip ⟨1, 999999⟩ ⟨2, 2⟩ (by decide) (by decide) (by decide) (by decide)⟩

/-- C9: a `Duration` captures the `Time`'s fields by value at
construction; running any later mutating operation on the `Time` (`+=`,
`-=`, `*=`, `/=`, assignment, or the clock-setting mutators) leaves the
`Duration`'s captured fields — and its rendered output — unchanged. -/
theorem C9_duration_immune_to_mutation (t : Timeval) (flag : Bool) (op : TimeOp) :
    (stepTime op ⟨t, durationOfTime t flag⟩).dv = durationOfTime t flag ∧
    durRender (stepTime op ⟨t, durationOfTime t flag⟩).dv =
      durRender (durationOfTime t flag) :=
  ⟨rfl, rfl⟩

/-- C4: scalar division follows the two-branch algorithm: for
`seconds >= denominator`, seconds are integer-divided and the remainder
seconds plus microseconds are converted to one microsecond count and
divided; otherwise seconds is 0 and the whole value is converted to
microseconds and divided (truncating).  In particular
`Time(10,0) / 4 = (2, 500000)` and `Time(0,100) / 1000 = (0, 0)`. -/
theorem C4_scalar_division (t : Timeval) (d : Int)
    (hs : 0 ≤ t.tv_sec) (hu0 : 0 ≤ t.tv_usec) (hu1 : t.tv_usec < 1000000)
    (hd0 : 0 < d) (hd1 : d < 2147483648) :
    (d ≤ t.tv_sec → timeDiv t d =
      ⟨t.tv_sec / d, (t.tv_sec % d * 1000000 + t.tv_usec) / d⟩) ∧
    (t.tv_sec < d → timeDiv t d =
      ⟨0, (t.tv_sec * 1000000 + t.tv_usec) / d⟩) ∧
    timeDiv ⟨10, 0⟩ 4 = ⟨2, 500000⟩ ∧ timeDiv ⟨0, 100⟩ 1000 = ⟨0, 0⟩ := by
  have hdu : u64 d = d := u64_eq_self (by omega) (by omega)
  have eu : u64 t.tv_usec = t.tv_usec := u64_eq_self hu0 (by omega)
  refine ⟨?_, ?_, by decide, by decide⟩
  · intro h
    have e1 : t.tv_sec.tdiv d = t.tv_sec / d := Int.tdiv_eq_ediv hs (by omega)
    have e2 : t.tv_sec.tmod d = t.tv_sec % d := Int.tmod_eq_emod hs (by omega)
    have hr0 : 0 ≤ t.tv_sec % d := Int.emod_nonneg _ (by omega)
    have hr1 : t.tv_sec % d < d := Int.emod_lt_of_pos _ hd0
    have e3 : u64 (t.tv_sec % d) = t.tv_sec % d := u64_eq_self hr0 (by omega)
    have e4 : u64 (t.tv_sec % d * 1000000) = t.tv_sec % d * 1000000 :=
      u64_eq_self (by omega) (by omega)
    have e5 : u64 (t.tv_sec % d * 1000000 + t.tv_usec) =
        t.tv_sec % d * 1000000 + t.tv_usec :=
      u64_eq_self (by omega) (by omega)
    have hq0 : 0 ≤ (t.tv_sec % d * 1000000 + t.tv_usec) / d :=
      Int.ediv_nonneg (by omega) (by omega)
    have hq1 : (t.tv_sec % d * 1000000 + t.tv_usec) / d < 9223372036854775808 := by
      have := Int.ediv_le_self d
        (show (0:Int) ≤ t.tv_sec % d * 1000000 + t.tv_usec by omega)
      omega
    simp only [timeDiv, timeDivAssign, MAX_USECS]
    rw [if_pos h, e2, e3, e4, eu, e5, hdu, e1, i64_eq_self hq0 hq1]
  · intro h
    have hnotle : ¬ d ≤ t.tv_sec := by omega
    have e3 : u64 (u64 (u64 t.tv_sec * 1000000) + u64 t.tv_usec) =
        u64 (t.tv_sec * 1000000 + t.tv_usec) := u64_total_collapse _ _
    have e4 : u64 (t.tv_sec * 1000000 + t.tv_usec) =
        t.tv_sec * 1000000 + t.tv_usec :=
      u64_eq_self (by omega) (by omega)
    have hq0 : 0 ≤ (t.tv_sec * 1000000 + t.tv_usec) / d :=
      Int.ediv_nonneg (by omega) (by omega)
    have hq1 : (t.tv_sec * 1000000 + t.tv_usec) / d < 9223372036854775808 := by
      have := Int.ediv_le_self d
        (show (0:Int) ≤ t.tv_sec * 1000000 + t.tv_usec by omega)
      omega
    simp only [timeDiv, timeDivAssign, MAX_USECS]
    rw [if_neg hnotle, e3, e4, hdu, i64_eq_self hq0 hq1]

/-- C4 witness: `Time(10, 0) / 4` — seconds 10 ≥ denominator 4, so the
first branch gives `(10/4, (10%4 * 1000000 + 0)/4) = (2, 500000)`. -/
theorem C4_scalar_division_witness :
    (0 : Int) ≤ 10 ∧ (0 : Int) ≤ 0 ∧ (0 : Int) < 1000000 ∧
    (0 : Int) < 4 ∧ (4 : Int) < 2147483648 ∧
    (((4 : Int) ≤ 10 → timeDiv ⟨10, 0⟩ 4 = ⟨10 / 4, (10 % 4 * 1000000 + 0) / 4⟩) ∧
     ((10 : Int) < 4 → timeDiv ⟨10, 0⟩ 4 = ⟨0, (10 * 1000000 + 0) / 4⟩) ∧
     timeDiv ⟨10, 0⟩ 4 = ⟨2, 500000⟩ ∧ timeDiv ⟨0, 100⟩ 1000 = ⟨0, 0⟩) :=
  ⟨by decide, by decide, by decide, by decide, by decide,
   C4_scalar_division ⟨10, 0⟩ 4 (by decide) (by decide) (by decide) (by decide) (by decide)⟩

/-- C7 counterexample: `in_micros` computes `tv_sec * 1000000 + tv_usec`
in 64-bit unsigned arithmetic, so it wraps: for `a = Time(2^62, 0)` the
machine value is 0 and the code reports `a < Time(1, 0)` even though
`a`'s mathematical total-microsecond value is far larger. -/
theorem C7_counterexample_wraparound :
    timeLtB ⟨4611686018427387904, 0⟩ ⟨1, 0⟩ = true ∧
    ¬ ((4611686018427387904 : Int) * 1000000 + 0 < (1 : Int) * 1000000 + 0) := by
  constructor
  · decide
  · decide

/-- C7 (amended): for Times whose total-microsecond value
`tv_sec * 1000000 + tv_usec` fits the signed 64-bit range, each of the
six relational operators holds iff the corresponding comparison of the
total-microsecond scalars holds (a total order with exact equality). -/
theorem C7_relational_iff_total_micros (a b : Timeval)
    (ha0 : -9223372036854775808 ≤ a.tv_sec * 1000000 + a.tv_usec)
    (ha1 : a.tv_sec * 1000000 + a.tv_usec < 9223372036854775808)
    (hb0 : -9223372036854775808 ≤ b.tv_sec * 1000000 + b.tv_usec)
    (hb1 : b.tv_sec * 1000000 + b.tv_usec < 9223372036854775808) :
    (timeLtB a b = true ↔
      a.tv_sec * 1000000 + a.tv_usec < b.tv_sec * 1000000 + b.tv_usec) ∧
    (timeLeB a b = true ↔
      a.tv_sec * 1000000 + a.tv_usec ≤ b.tv_sec * 1000000 + b.tv_usec) ∧
    (timeGtB a b = true ↔
      b.tv_sec * 1000000 + b.tv_usec < a.tv_sec * 1000000 + a.tv_usec) ∧
    (timeGeB a b = true ↔
      b.tv_sec * 1000000 + b.tv_usec ≤ a.tv_sec * 1000000 + a.tv_usec) ∧
    (timeEqB a b = true ↔
      a.tv_sec * 1000000 + a.tv_usec = b.tv_sec * 1000000 + b.tv_usec) ∧
    (timeNeB a b = true ↔
      a.tv_sec * 1000000 + a.tv_usec ≠ b.tv_sec * 1000000 + b.tv_usec) := by
  have hA := in_micros_eq_total ha0 ha1
  have hB := in_micros_eq_total hb0 hb1
  simp [timeLtB, timeLeB, timeGtB, timeGeB, timeEqB, timeNeB, hA, hB]

/-- C7 witness: `a = Time(1, 2)`, `b = Time(1, 3)` — all six operators
agree with the total-microsecond comparison. -/
theorem C7_relational_witness :
    -(9223372036854775808 : Int) ≤ (1 : Int) * 1000000 + 2 ∧
    (1 : Int) * 1000000 + 2 < 9223372036854775808 ∧
    -(9223372036854775808 : Int) ≤ (1 : Int) * 1000000 + 3 ∧
    (1 : Int) * 1000000 + 3 < 9223372036854775808 ∧
    ((timeLtB ⟨1, 2⟩ ⟨1, 3⟩ = true ↔
       (1 : Int) * 1000000 + 2 < (1 : Int) * 1000000 + 3) ∧
     (timeLeB ⟨1, 2⟩ ⟨1, 3⟩ = true ↔
       (1 : Int) * 1000000 + 2 ≤ (1 : Int) * 1000000 + 3) ∧
     (timeGtB ⟨1, 2⟩ ⟨1, 3⟩ = true ↔
       (1 : Int) * 1000000 + 3 < (1 : Int) * 1000000 + 2) ∧
     (timeGeB ⟨1, 2⟩ ⟨1, 3⟩ = true ↔
       (1 : Int) * 1000000 + 3 ≤ (1 : Int) * 1000000 + 2) ∧
     (timeEqB ⟨1, 2⟩ ⟨1, 3⟩ = true ↔
       (1 : Int) * 1000000 + 2 = (1 : Int) * 1000000 + 3) ∧
     (timeNeB ⟨1, 2⟩ ⟨1, 3⟩ = true ↔
       (1 : Int) * 1000000 + 2 ≠ (1 : Int) * 1000000 + 3)) :=
  ⟨by decide, by decide, by decide, by decide,
   C7_relational_iff_total_micros ⟨1, 2⟩ ⟨1, 3⟩
     (by decide) (by decide) (by decide) (by decide)⟩

/-- C8: the mixed-operand forms `t + m` and `t - m` (with `m` an
unsigned microsecond count) equal `t + Time(m)` and `t - Time(m)`, where
`Time(m)` is the raw-microsecond constructor
`(m / 1000000, m % 1000000)` and the combine is the same
TimePoint-TimePoint addition/subtraction. -/
theorem C8_offset_operand_refines (t : Timeval) (m : Int)
    (h0 : 0 ≤ m) (h1 : m < 18446744073709551616) :
    timeAddOffset t m = timeAdd t ⟨m / 1000000, m % 1000000⟩ ∧
    timeSubOffset t m = timeSub t ⟨m / 1000000, m % 1000000⟩ := by
  have hOf : timeOfMicros m = ⟨m / 1000000, m % 1000000⟩ := by
    have hq0 : 0 ≤ m / 1000000 := Int.ediv_nonneg h0 (by omega)
    have hq1 : m / 1000000 < 9223372036854775808 := by omega
    have hr0 : 0 ≤ m % 1000000 := Int.emod_nonneg _ (by omega)
    have hr1 : m % 1000000 < 9223372036854775808 := by omega
    unfold timeOfMicros MAX_USECS
    rw [u64_eq_self h0 h1, i64_eq_self hq0 hq1, i64_eq_self hr0 hr1]
  constructor
  · show timeAdd t (timeOfMicros m) = _
    rw [hOf]
  · show timeSub t (timeOfMicros m) = _
    rw [hOf]

/-- C8 witness: `t = Time(1, 999999)`, `m = 2000003` — both mixed-operand
forms equal the TimePoint-TimePoint forms against `(2, 3)`. -/
theorem C8_offset_operand_witness :
    (0 : Int) ≤ 2000003 ∧ (2000003 : Int) < 18446744073709551616 ∧
    (timeAddOffset ⟨1, 999999⟩ 2000003 =
       timeAdd ⟨1, 999999⟩ ⟨2000003 / 1000000, 2000003 % 1000000⟩ ∧
     timeSubOffset ⟨1, 999999⟩ 2000003 =
       timeSub ⟨1, 999999⟩ ⟨2000003 / 1000000, 2000003 % 1000000⟩) :=
  ⟨by decide, by decide,
   C8_offset_operand_refines ⟨1, 999999⟩ 2000003 (by decide) (by decide)⟩

/-- C10 counterexample: at denominator 1 the unsigned quotient
`(2^64 - 1000000) / 1` does not fit the signed `tv_usec` field, so the
stored microsecond value is `-1000000`, not the huge wrapped quotient
the claim states for every positive denominator. -/
theorem C10_counterexample_denominator_one :
    (timeDiv ⟨-1, 0⟩ 1).tv_usec ≠
      (((-1 : Int) * 1000000 + 0) % 18446744073709551616) / 1 := by
  decide

/-- C10 (amended): for a Time with negative seconds and a positive
denominator the else branch runs in unsigned 64-bit arithmetic: the
result has seconds 0 and its microsecond field is the signed-64-bit
reinterpretation of `((t.tv_sec * 1000000 + t.tv_usec) mod 2^64) / d`;
for every `d ≥ 2` that quotient fits, so the field is the huge wrapped
quotient itself (e.g. `Time(-1,0) / 2` yields `(2^64 - 1000000) / 2`). -/
theorem C10_negative_seconds_division (t : Timeval) (d : Int)
    (hneg : t.tv_sec < 0) (hd0 : 0 < d) (hd1 : d < 2147483648) :
    (timeDiv t d).tv_sec = 0 ∧
    (timeDiv t d).tv_usec =
      i64 (((t.tv_sec * 1000000 + t.tv_usec) % 18446744073709551616) / d) ∧
    (2 ≤ d → (timeDiv t d).tv_usec =
      ((t.tv_sec * 1000000 + t.tv_usec) % 18446744073709551616) / d) := by
  have hdu : u64 d = d := u64_eq_self (by omega) (by omega)
  have hnotle : ¬ d ≤ t.tv_sec := by omega
  have hEq : timeDiv t d =
      ⟨0, i64 (((t.tv_sec * 1000000 + t.tv_usec) % 18446744073709551616) / d)⟩ := by
    simp only [timeDiv, timeDivAssign, MAX_USECS]
    rw [if_neg hnotle, u64_total_collapse, hdu]
    rfl
  refine ⟨by rw [hEq], by rw [hEq], ?_⟩
  intro hd2
  rw [hEq]
  have hm0 : 0 ≤ (t.tv_sec * 1000000 + t.tv_usec) % 18446744073709551616 :=
    Int.emod_nonneg _ (by omega)
  have hm1 : (t.tv_sec * 1000000 + t.tv_usec) % 18446744073709551616 <
      18446744073709551616 :=
    Int.emod_lt_of_pos _ (by omega)
  have hq0 : 0 ≤ ((t.tv_sec * 1000000 + t.tv_usec) % 18446744073709551616) / d :=
    Int.ediv_nonneg hm0 (by omega)
  have hq1 : ((t.tv_sec * 1000000 + t.tv_usec) % 18446744073709551616) / d <
      9223372036854775808 := by
    rw [Int.ediv_lt_iff_lt_mul hd0]
    omega
  rw [i64_eq_self hq0 hq1]

/-- C10 witness: `Time(-1, 0) / 2` — seconds 0 and the microsecond field
is the huge wrapped quotient `(2^64 - 1000000) / 2`. -/
theorem C10_negative_seconds_witness :
    (-1 : Int) < 0 ∧ (0 : Int) < 2 ∧ (2 : Int) < 2147483648 ∧
    ((timeDiv ⟨-1, 0⟩ 2).tv_sec = 0 ∧
     (timeDiv ⟨-1, 0⟩ 2).tv_usec =
       i64 ((((-1 : Int) * 1000000 + 0) % 18446744073709551616) / 2) ∧
     ((2 : Int) ≤ 2 → (timeDiv ⟨-1, 0⟩ 2).tv_usec =
       (((-1 : Int) * 1000000 + 0) % 18446744073709551616) / 2)) :=
  ⟨by decide, by decide, by decide,
   C10_negative_seconds_division ⟨-1, 0⟩ 2 (by decide) (by decide) (by decide)⟩
